import Mathlib

/-!
Shallow embedding of the `astrbot_plugin_command_to_llm` plugin core
(`command_trigger.py`, `command_executor.py`, `data_manager.py`,
`dynamic_llm_manager.py`) used to settle the frozen claims about the
Command Invocation & Response Capture Bridge.

Modelling conventions:
* A message chain (`MessageChain`) is a record with a list of content
  components plus a flag recording whether the Python object exposes a
  `chain` attribute (`hasattr(message_chain, "chain")`).
* An event's bound `send` method is modelled as a first-class value
  (`SendVal`): `native eid` is the event's own original send, while
  `intercepted inv` is the closure installed by invocation number `inv`.
  Events are addressed by numeric ids through a store `Nat → SendVal`.
* Durations are exact rationals; the Python `while` loop of
  `trigger_and_capture_command` is embedded with an explicit recursion
  bound (`fuel`).  The bound `⌈maxW / ival⌉ + 1` strictly exceeds the
  number of iterations the guarded loop can perform (the lemmas below
  prove the exhaustion branch is never taken), so the fuel encoding and
  the source loop agree.
* `try/except` is embedded with `Except`: the body returns `.error`
  carrying the mutable state at the raise point, and the public wrapper
  matches on it exactly as the `except Exception` handler does.
-/

/-- One content component of a message chain (`astrbot` message components). -/
inductive Component where
  | plain (text : String)
  | other (tag : Nat)
deriving DecidableEq

/-- A captured message: the Python object passed to `event.send`.
`hasChainAttr` models `hasattr(message_chain, "chain")`. -/
structure MsgChain where
  hasChainAttr : Bool
  chain : List Component
deriving DecidableEq

/-- The target event state touched by the interceptor: `_has_send_oper`. -/
structure EventFlags where
  hasSendOper : Bool
deriving DecidableEq

/-- Buffer effect of `intercepted_send` (command_trigger.py lines 29-44):
a non-`None` argument with a `chain` attribute is appended (first branch);
a non-`None` argument without one is also appended (the inner
`if message_chain is not None` of the else branch); `None` appends nothing.
The two appending branches differ only in the log text. -/
def interceptAppend (captured : List MsgChain) (m : Option MsgChain) :
    List MsgChain :=
  match m with
  | some mc => if mc.hasChainAttr then captured ++ [mc] else captured ++ [mc]
  | none => captured

/-- Embedding of `intercepted_send` (command_trigger.py lines 29-44): updates the capture
buffer, sets `target_event._has_send_oper = True`, and returns `True`. -/
def intercepted_send (captured : List MsgChain) (target : EventFlags)
    (m : Option MsgChain) : List MsgChain × EventFlags × Bool :=
  (interceptAppend captured m, { target with hasSendOper := true }, true)

/-- The value held in an event's `send` slot. -/
inductive SendVal where
  | native (eid : Nat)
  | intercepted (inv : Nat)
deriving DecidableEq

/-- Mutable fields of a `CommandTrigger` instance (command_trigger.py
lines 12-17): the capture buffer, the saved original send method, and the
reference to the current target event. -/
structure Trigger where
  captured : List MsgChain
  original_send_method : Option SendVal
  target_event : Option Nat
deriving DecidableEq

/-- Field updates of `setup_message_interceptor` (command_trigger.py lines
19-26): set `target_event`, reset the buffer, and save the event's current
send method only when `original_send_method is None`. -/
def setup_fields (tr : Trigger) (store : Nat → SendVal) (eid : Nat) :
    Trigger :=
  let tr' := { tr with target_event := some eid, captured := [] }
  match tr'.original_send_method with
  | none => { tr' with original_send_method := some (store eid) }
  | some _ => tr'

/-- Embedding of `setup_message_interceptor` (command_trigger.py lines 19-48): the field
updates above followed by replacing the event's send slot with the
interceptor closure of invocation `inv`. -/
def setup_message_interceptor (tr : Trigger) (store : Nat → SendVal)
    (eid inv : Nat) : Trigger × (Nat → SendVal) :=
  (setup_fields tr store eid,
    Function.update store eid (SendVal.intercepted inv))

/-- Embedding of `restore_message_sender` (command_trigger.py lines 50-54): when both
`original_send_method` and `target_event` are truthy, write the saved send
back onto the recorded target event; the trigger fields are not cleared. -/
def restore_message_sender (tr : Trigger) (store : Nat → SendVal) :
    Nat → SendVal :=
  match tr.original_send_method, tr.target_event with
  | some orig, some eid => Function.update store eid orig
  | _, _ => store

/-- One-tick-per-iteration embedding of the wait loop (command_trigger.py
lines 100-107).  `deliver t` lists the arguments the host pipeline passes to
the intercepted send during the `t`-th sleep; the buffer is updated through
`interceptAppend` exactly as `intercepted_send` does.  `fuel` bounds the
recursion depth; the caller supplies strictly more fuel than the guard
`waited < maxW` allows iterations, so the `0` case is never reached there. -/
def waitLoopF (fuel : Nat) (maxW ival : ℚ)
    (deliver : Nat → List (Option MsgChain)) (tick : Nat) (waited : ℚ)
    (captured : List MsgChain) : ℚ × Nat × List MsgChain :=
  match fuel with
  | 0 => (waited, tick, captured)
  | fuel + 1 =>
    if waited < maxW then
      let waited' := waited + ival
      let captured' := (deliver tick).foldl interceptAppend captured
      if captured' = [] then
        waitLoopF fuel maxW ival deliver (tick + 1) waited' captured'
      else
        (waited', tick + 1, captured')
    else
      (waited, tick, captured)

/-- The full wait loop of `trigger_and_capture_command`, started with
`waited_time = 0.0` and an empty buffer.  Returns (final waited time,
number of completed iterations, final buffer). -/
def wait_loop (maxW ival : ℚ) (deliver : Nat → List (Option MsgChain)) :
    ℚ × Nat × List MsgChain :=
  waitLoopF ((⌈maxW / ival⌉).toNat + 1) maxW ival deliver 0 0 []

/-- Point at which an injected internal failure raises inside the `try`
block of `trigger_and_capture_command`: while building the event
(`create_command_event`), while installing the interceptor (the
`target_event.send = intercepted_send` assignment), or while submitting to
the event queue (`put_nowait`). -/
inductive FailStage where
  | build
  | setup
  | enqueue
deriving DecidableEq

/-- Environment of one invocation: target conversation and command text,
the fresh synthetic event's id, the invocation number (tags the interceptor
closure), an optional injected failure, and the host pipeline's deliveries
to the intercepted send at each poll tick. -/
structure Env where
  umo : String
  command : String
  eid : Nat
  inv : Nat
  failAt : Option FailStage
  deliver : Nat → List (Option MsgChain)

/-- Body of the `try` block of `trigger_and_capture_command`
(command_trigger.py lines 78-118).  `.error` carries the trigger and store
state at the raise point.  Building the event installs its native send in
the store; then the interceptor is installed, the event is enqueued, the
clamps `max_wait_time = max(max_wait_time, 1.0)` and
`wait_interval = max(wait_interval, 0.05)` are applied, the wait loop runs,
the sender is restored, and the outcome is computed from the buffer. -/
def trigger_body (tr : Trigger) (store : Nat → SendVal) (env : Env)
    (max_wait_time wait_interval : ℚ) :
    Except (Trigger × (Nat → SendVal))
      (Trigger × (Nat → SendVal) × Bool × List MsgChain) :=
  if env.failAt = some FailStage.build then
    .error (tr, store)
  else
    let store0 := Function.update store env.eid (SendVal.native env.eid)
    if env.failAt = some FailStage.setup then
      .error (setup_fields tr store0 env.eid, store0)
    else
      let p := setup_message_interceptor tr store0 env.eid env.inv
      if env.failAt = some FailStage.enqueue then
        .error (p.1, p.2)
      else
        let maxW := max max_wait_time 1
        let ival := max wait_interval (1 / 20)
        let r := wait_loop maxW ival env.deliver
        let tr2 := { p.1 with captured := r.2.2 }
        let store2 := restore_message_sender tr2 p.2
        if r.2.2 = [] then
          .ok (tr2, store2, false, [])
        else
          .ok (tr2, store2, true, r.2.2)

/-- Embedding of `trigger_and_capture_command` (command_trigger.py lines 68-128): run the
`try` body; on an exception, restore the original message sender and report
`(False, [])` — the `except Exception` handler of lines 120-128. -/
def trigger_and_capture_command (tr : Trigger) (store : Nat → SendVal)
    (env : Env) (max_wait_time wait_interval : ℚ) :
    Trigger × (Nat → SendVal) × Bool × List MsgChain :=
  match trigger_body tr store env max_wait_time wait_interval with
  | .ok res => res
  | .error s => (s.1, restore_message_sender s.1 s.2, false, [])

/-- One observable action of `trigger_and_forward_command`: a real delivery
through `context.send_message`, or an `asyncio.sleep` pacing delay. -/
inductive FwdAction where
  | send (umo : String) (m : MsgChain)
  | sleep (d : ℚ)
deriving DecidableEq

/-- The failure notice of command_trigger.py lines 172-173:
`Plain(f"指令 {command} 执行失败，未收到响应")` wrapped in a fresh chain. -/
def forward_error_msg (command : String) : MsgChain :=
  { hasChainAttr := true
    chain := [Component.plain ("指令 " ++ command ++ " 执行失败，未收到响应")] }

/-- Delivery trace of `trigger_and_forward_command` after the capture
(command_trigger.py lines 151-175).  On `success and captured_messages`,
iterate `for i, captured_msg in enumerate(captured_messages)`: send the
message, then sleep `max(forward_interval, 0.0)` when
`len(captured_messages) > 1 and i < len(captured_messages) - 1`.
Otherwise send the single failure notice. -/
def forward_trace (umo command : String) (success : Bool)
    (captured : List MsgChain) (forward_interval : ℚ) : List FwdAction :=
  if success = true ∧ captured ≠ [] then
    captured.enum.flatMap (fun p =>
      FwdAction.send umo p.2 ::
        (if 1 < captured.length ∧ p.1 < captured.length - 1 then
          [FwdAction.sleep (max forward_interval 0)]
        else []))
  else
    [FwdAction.send umo (forward_error_msg command)]

/-- Embedding of `trigger_and_forward_command` (command_trigger.py lines 130-176):
capture through `trigger_and_capture_command`, then emit the forwarding
trace for the resulting outcome. -/
def trigger_and_forward_command (tr : Trigger) (store : Nat → SendVal)
    (env : Env) (max_wait_time wait_interval forward_interval : ℚ) :
    Trigger × (Nat → SendVal) × List FwdAction :=
  let r := trigger_and_capture_command tr store env max_wait_time
    wait_interval
  (r.1, r.2.1,
    forward_trace env.umo env.command r.2.2.1 r.2.2.2 forward_interval)

/-- One mapping value stored in `DataManager.command_mappings`
(data_manager.py lines 130-140 and 341-348). -/
structure Mapping where
  llm_function : String
  description : String
  arg_description : String
  enabled : Bool
  group : String
  aliases : List String
  created_at : String
deriving DecidableEq

/-- One raw entry of the persisted `mapping_config.command_mappings` list
(the dict shape serialized by `_serialize_mappings`). -/
structure RawEntry where
  command_name : String
  llm_function : String
  description : String
  arg_description : String
  enabled : Bool
  group : String
  aliases : List String
  created_at : String
deriving DecidableEq

/-- Python dict assignment `d[k] = v` on an insertion-ordered dict:
replace in place when the key exists, otherwise append. -/
def dictInsert (m : List (String × Mapping)) (k : String) (v : Mapping) :
    List (String × Mapping) :=
  if m.any (fun p => p.1 == k) then
    m.map (fun p => if p.1 == k then (k, v) else p)
  else
    m ++ [(k, v)]

/-- Python `str.strip()`: drop whitespace from both ends of the string. -/
def pyStrip (s : String) : String :=
  String.mk
    (((s.data.dropWhile Char.isWhitespace).reverse.dropWhile
      Char.isWhitespace).reverse)

/-- Embedding of the normalization `_normalize_mapping_entries` (data_manager.py lines
114-141): strip names, skip entries with an empty name or function,
default the group, and clean the aliases; later entries overwrite
earlier ones with the same command name. -/
def normalize_mapping_entries (entries : List RawEntry) :
    List (String × Mapping) :=
  entries.foldl (fun acc item =>
    let command_name := pyStrip item.command_name
    let llm_function := pyStrip item.llm_function
    if command_name = "" ∨ llm_function = "" then acc
    else
      dictInsert acc command_name
        { llm_function := llm_function
          description := pyStrip item.description
          arg_description := pyStrip item.arg_description
          enabled := item.enabled
          group :=
            if pyStrip item.group = "" then "default" else pyStrip item.group
          aliases := (item.aliases.map pyStrip).filter (fun a => a ≠ "")
          created_at := pyStrip item.created_at }) []

/-- Embedding of `_serialize_mappings` (data_manager.py lines 143-159). -/
def serialize_mappings (m : List (String × Mapping)) : List RawEntry :=
  m.map (fun p =>
    { command_name := p.1
      llm_function := p.2.llm_function
      description := p.2.description
      arg_description := p.2.arg_description
      enabled := p.2.enabled
      group := if p.2.group = "" then "default" else p.2.group
      aliases := p.2.aliases
      created_at := p.2.created_at })

/-- Configuration sections read by `add_mapping`.  `_ensure_config_defaults`
only fills missing sections; on a well-formed config (as modelled here) it
leaves `mapping_config.command_mappings` unchanged. -/
structure DMConfig where
  command_mappings : List RawEntry
  strict_validation : Bool
  allow_duplicate_llm_function : Bool
deriving DecidableEq

/-- State of a `DataManager`: the persisted config, the in-memory mapping cache,
and a counter of `_save_mappings_to_config` calls (mapping-section writes). -/
structure DMState where
  config : DMConfig
  command_mappings : List (String × Mapping)
  mapping_saves : Nat
deriving DecidableEq

/-- Embedding of `reload_from_config` (data_manager.py lines 167-174). -/
def reload_from_config (st : DMState) : DMState :=
  { st with
    command_mappings := normalize_mapping_entries st.config.command_mappings }

/-- Embedding of `_save_mappings_to_config` (data_manager.py lines 161-165). -/
def save_mappings_to_config (st : DMState) : DMState :=
  { st with
    config :=
      { st.config with
        command_mappings := serialize_mappings st.command_mappings }
    mapping_saves := st.mapping_saves + 1 }

/-- Python `llm_function.replace("_", "").isalnum()` (data_manager.py line
323); `isalnum()` is false on the empty string. -/
def isalnumAfterUnderscoreRemoval (s : String) : Bool :=
  let r := s.replace "_" ""
  !r.isEmpty && r.all Char.isAlphanum

/-- Embedding of `DataManager.add_mapping` (data_manager.py lines 303-353).
`validate` stands for `CommandUtils.validate_mapping` (defined in
`utils.py`, which is not part of the provided sources); the claims below
hold for every validator, so it is taken as a parameter.  `now` stands for
`str(datetime.datetime.now())`. -/
def add_mapping (st : DMState) (validate : String → String → List String)
    (command_name llm_function description now : String) :
    DMState × Bool × String :=
  let st := reload_from_config st
  let errors := validate command_name llm_function
  if errors ≠ [] then
    (st, false, "参数验证失败: " ++ String.intercalate "; " errors)
  else if st.config.strict_validation
      && !isalnumAfterUnderscoreRemoval llm_function then
    (st, false, "LLM函数名称仅允许字母、数字和下划线")
  else
    match
      (if !st.config.allow_duplicate_llm_function then
        st.command_mappings.find? (fun p =>
          p.1 != command_name && p.2.llm_function == llm_function)
      else none) with
    | some p =>
      (st, false,
        "LLM函数 '" ++ llm_function ++ "' 已被指令 '" ++ p.1 ++ "' 使用")
    | none =>
      if st.command_mappings.any (fun p => p.1 == command_name) then
        (st, false, "指令 '" ++ command_name ++ "' 已存在映射")
      else
        let st :=
          { st with
            command_mappings :=
              dictInsert st.command_mappings command_name
                { llm_function := llm_function
                  description := description
                  arg_description := ""
                  enabled := true
                  group := "default"
                  aliases := []
                  created_at := now } }
        let st := save_mappings_to_config st
        (st, true,
          "成功添加指令映射：'" ++ command_name ++ "' -> '"
            ++ llm_function ++ "'")

/-- Argument handling of the dynamically registered LLM tool handler
(dynamic_llm_manager.py lines 108-127): read `command_text` (defaulting to
the registered command name) and `args` from the keyword arguments, then
force `command_text` back to the registered name when it differs.  Returns
the `(command_text, args)` pair passed to
`command_processor.execute_command`. -/
def dynamic_handler_call (command_name : String)
    (kw_command_text kw_args : Option String) : String × String :=
  let command_text := kw_command_text.getD command_name
  let args := kw_args.getD ""
  let command_text :=
    if command_text ≠ command_name then command_name else command_text
  (command_text, args)

/-- An empty fresh `CommandTrigger` state (command_trigger.py lines 12-17). -/
def tr0 : Trigger := { captured := [], original_send_method := none, target_event := none }

/-- A background store in which every event still holds its native send. -/
def store0 : Nat → SendVal := fun n => SendVal.native n

/-- First invocation: fresh event 1, no failure, pipeline never answers. -/
def env1 : Env :=
  { umo := "room", command := "/one", eid := 1, inv := 1, failAt := none,
    deliver := fun _ => [] }

/-- Second invocation: fresh event 2, no failure, pipeline never answers. -/
def env2 : Env :=
  { umo := "room", command := "/two", eid := 2, inv := 2, failAt := none,
    deliver := fun _ => [] }

/-- An invocation whose queue submission raises. -/
def envE : Env :=
  { umo := "room", command := "/boom", eid := 3, inv := 3,
    failAt := some FailStage.enqueue, deliver := fun _ => [] }

/-- A sample well-formed captured message. -/
def mOK : MsgChain := { hasChainAttr := true, chain := [Component.plain "OK"] }

/-- Sample captured messages for the forwarding scenario. -/
def mA : MsgChain := { hasChainAttr := true, chain := [Component.plain "a"] }

/-- Second sample message. -/
def mB : MsgChain := { hasChainAttr := true, chain := [Component.plain "b"] }

/-- Third sample message. -/
def mC : MsgChain := { hasChainAttr := true, chain := [Component.plain "c"] }

/-- An invocation answered by the pipeline during the first poll tick. -/
def env3 : Env :=
  { umo := "room1", command := "/status", eid := 4, inv := 4, failAt := none,
    deliver := fun t => if t = 0 then [some mOK] else [] }

/-- Recognizer for real deliveries in a forwarding trace. -/
def FwdAction.isSend : FwdAction → Bool
  | .send _ _ => true
  | .sleep _ => false

/-- Recognizer for pacing delays in a forwarding trace. -/
def FwdAction.isSleep : FwdAction → Bool
  | .send _ _ => false
  | .sleep _ => true

/-- A persisted mapping entry used as concrete input. -/
def rawWeather : RawEntry :=
  { command_name := "weather", llm_function := "get_weather",
    description := "", arg_description := "", enabled := true,
    group := "default", aliases := [], created_at := "" }

/-- A `DataManager` state whose persisted config already maps `weather`. -/
def dm0 : DMState :=
  { config :=
      { command_mappings := [rawWeather], strict_validation := false,
        allow_duplicate_llm_function := true }
    command_mappings := [], mapping_saves := 0 }

/-- Step equation of the fuelled wait loop. -/
theorem waitLoopF_succ (fuel : Nat) (maxW ival : ℚ)
    (deliver : Nat → List (Option MsgChain)) (tick : Nat) (waited : ℚ)
    (captured : List MsgChain) :
    waitLoopF (fuel + 1) maxW ival deliver tick waited captured =
      if waited < maxW then
        (if (deliver tick).foldl interceptAppend captured = [] then
          waitLoopF fuel maxW ival deliver (tick + 1) (waited + ival)
            ((deliver tick).foldl interceptAppend captured)
        else
          (waited + ival, tick + 1,
            (deliver tick).foldl interceptAppend captured))
      else
        (waited, tick, captured) := rfl

/-- Folding the interceptor's buffer update over a list of send arguments
appends exactly the non-`None` arguments, in order. -/
theorem foldl_interceptAppend (ms : List (Option MsgChain))
    (captured : List MsgChain) :
    ms.foldl interceptAppend captured = captured ++ ms.filterMap id := by
  induction ms generalizing captured with
  | nil => simp
  | cons m ms ih =>
    cases m with
    | none =>
      simp only [List.foldl_cons, interceptAppend, List.filterMap_cons, id]
      exact ih captured
    | some mc =>
      simp only [List.foldl_cons, interceptAppend, ite_self,
        List.filterMap_cons, id]
      rw [ih (captured ++ [mc])]
      simp

/-- The wait loop only moves the tick counter forward, and its final buffer
is the initial buffer followed by every non-`None` argument the pipeline
passed to the intercepted send during the executed ticks, in order. -/
theorem waitLoopF_run (maxW ival : ℚ)
    (deliver : Nat → List (Option MsgChain)) :
    ∀ (fuel tick : Nat) (waited : ℚ) (captured : List MsgChain),
      tick ≤ (waitLoopF fuel maxW ival deliver tick waited captured).2.1 ∧
      (waitLoopF fuel maxW ival deliver tick waited captured).2.2 =
        captured ++
          ((List.range' tick
              ((waitLoopF fuel maxW ival deliver tick waited captured).2.1
                - tick)).flatMap deliver).filterMap id := by
  intro fuel
  induction fuel with
  | zero =>
    intro tick waited captured
    refine ⟨le_refl _, ?_⟩
    simp [waitLoopF]
  | succ fuel ih =>
    intro tick waited captured
    rw [waitLoopF_succ]
    by_cases hw : waited < maxW
    · rw [if_pos hw]
      by_cases hc : (deliver tick).foldl interceptAppend captured = []
      · rw [if_pos hc]
        have hfold := foldl_interceptAppend (deliver tick) captured
        rw [hc] at hfold
        obtain ⟨hcapl, hdel0⟩ := List.append_eq_nil.mp hfold.symm
        subst hcapl
        rw [hc]
        obtain ⟨ih1, ih2⟩ := ih (tick + 1) (waited + ival) []
        refine ⟨by omega, ?_⟩
        rw [ih2]
        have hsplit :
            (waitLoopF fuel maxW ival deliver (tick + 1) (waited + ival)
              []).2.1 - tick =
            ((waitLoopF fuel maxW ival deliver (tick + 1) (waited + ival)
              []).2.1 - (tick + 1)) + 1 := by omega
        rw [hsplit, List.range'_succ]
        simp [hdel0]
      · rw [if_neg hc]
        refine ⟨Nat.le_succ tick, ?_⟩
        show (deliver tick).foldl interceptAppend captured =
          captured ++
            (((List.range' tick (tick + 1 - tick)).flatMap deliver).filterMap
              id)
        have h1 : tick + 1 - tick = 1 := by omega
        rw [h1, List.range'_one, foldl_interceptAppend]
        simp
    · rw [if_neg hw]
      refine ⟨le_refl _, ?_⟩
      simp

/-- When the intercepted send is never called, the wait loop runs exactly
`⌈(maxW - waited) / ival⌉` further iterations, each advancing the clock by
one poll interval, and ends with an empty buffer. -/
theorem waitLoopF_no_capture (maxW ival : ℚ) (hival : 0 < ival)
    (deliver : Nat → List (Option MsgChain)) (hdel : ∀ t, deliver t = []) :
    ∀ (fuel tick : Nat) (waited : ℚ),
      (⌈(maxW - waited) / ival⌉).toNat ≤ fuel →
      waitLoopF fuel maxW ival deliver tick waited [] =
        (waited + ((⌈(maxW - waited) / ival⌉).toNat : ℚ) * ival,
         tick + (⌈(maxW - waited) / ival⌉).toNat, []) := by
  intro fuel
  induction fuel with
  | zero =>
    intro tick waited hfuel
    have h0 : (⌈(maxW - waited) / ival⌉).toNat = 0 := Nat.le_zero.mp hfuel
    rw [h0]
    simp [waitLoopF]
  | succ fuel ih =>
    intro tick waited hfuel
    rw [waitLoopF_succ]
    by_cases hw : waited < maxW
    · rw [if_pos hw, hdel tick]
      simp only [List.foldl_nil, if_pos rfl]
      have hstep : (maxW - (waited + ival)) / ival =
          (maxW - waited) / ival - 1 := by
        rw [show maxW - (waited + ival) = maxW - waited - ival by ring,
          sub_div, div_self (ne_of_gt hival)]
      have hkey : ⌈(maxW - (waited + ival)) / ival⌉ =
          ⌈(maxW - waited) / ival⌉ - 1 := by
        rw [hstep, Int.ceil_sub_one]
      have hpos : 1 ≤ ⌈(maxW - waited) / ival⌉ :=
        Int.ceil_pos.mpr (div_pos (by linarith) hival)
      have hfuel' : (⌈(maxW - (waited + ival)) / ival⌉).toNat ≤ fuel := by
        rw [hkey]; omega
      rw [ih (tick + 1) (waited + ival) hfuel']
      have hn : (⌈(maxW - waited) / ival⌉).toNat =
          (⌈(maxW - (waited + ival)) / ival⌉).toNat + 1 := by
        rw [hkey]; omega
      rw [hn]
      refine congrArg₂ Prod.mk ?_ (congrArg₂ Prod.mk (by omega) rfl)
      push_cast
      ring
    · rw [if_neg hw]
      have h0 : (⌈(maxW - waited) / ival⌉).toNat = 0 := by
        have hle : (maxW - waited) / ival ≤ 0 :=
          div_nonpos_iff.mpr (Or.inr ⟨by linarith, hival.le⟩)
        have : ⌈(maxW - waited) / ival⌉ ≤ 0 :=
          Int.ceil_le.mpr (by exact_mod_cast hle)
        omega
      rw [h0]
      simp

/-- Resetting the buffer of a freshly set up trigger is the identity:
`setup_fields` already leaves the buffer empty. -/
theorem setup_fields_captured_eta (tr : Trigger) (store : Nat → SendVal)
    (eid : Nat) :
    { setup_fields tr store eid with captured := ([] : List MsgChain) } =
      setup_fields tr store eid := by
  unfold setup_fields
  cases tr.original_send_method <;> simp

/-- Full evaluation of a no-failure invocation whose pipeline never calls
the intercepted send: the trigger ends in the state left by
`setup_message_interceptor`, the store is that state restored, and the
outcome is `(False, [])`. -/
theorem trigger_timeout_result (tr : Trigger) (store : Nat → SendVal)
    (env : Env) (mw wi : ℚ) (hf : env.failAt = none)
    (hd : ∀ t, env.deliver t = []) :
    trigger_and_capture_command tr store env mw wi =
      ((setup_message_interceptor tr
          (Function.update store env.eid (SendVal.native env.eid))
          env.eid env.inv).1,
       restore_message_sender
         (setup_message_interceptor tr
           (Function.update store env.eid (SendVal.native env.eid))
           env.eid env.inv).1
         (setup_message_interceptor tr
           (Function.update store env.eid (SendVal.native env.eid))
           env.eid env.inv).2,
       false, []) := by
  have hival : (0:ℚ) < max wi (1/20) :=
    lt_of_lt_of_le (by norm_num) (le_max_right _ _)
  have hfuel : (⌈(max mw 1 - 0) / max wi (1/20)⌉).toNat ≤
      (⌈max mw 1 / max wi (1/20)⌉).toNat + 1 := by
    rw [sub_zero]
    omega
  have hloop := waitLoopF_no_capture (max mw 1) (max wi (1/20)) hival
    env.deliver hd ((⌈max mw 1 / max wi (1/20)⌉).toNat + 1) 0 0 hfuel
  have hcap : (wait_loop (max mw 1) (max wi (1/20)) env.deliver).2.2 = [] := by
    unfold wait_loop
    rw [hloop]
  unfold trigger_and_capture_command trigger_body
  simp only [hf, reduceCtorEq, if_false, ite_false]
  rw [hcap]
  simp [setup_message_interceptor, setup_fields_captured_eta]

/-- C1: running two invocations on the same `CommandTrigger` instance, the
second on a different event, leaves the second event's send slot holding the
FIRST event's original send (`native 1`) instead of its own pre-invocation
value (`native 2`): `setup_message_interceptor` saves the original send only
when `original_send_method is None`, and `restore_message_sender` never
clears it, so the second restore writes a stale method.  This contradicts
the spec's primary invariant that every invocation restores the target
event's send to its pre-invocation behavior. -/
theorem c1_second_invocation_restores_stale_send :
    (trigger_and_capture_command
        (trigger_and_capture_command tr0 store0 env1 1 1).1
        (trigger_and_capture_command tr0 store0 env1 1 1).2.1
        env2 1 1).2.1 2 = SendVal.native 1 ∧
    (trigger_and_capture_command
        (trigger_and_capture_command tr0 store0 env1 1 1).1
        (trigger_and_capture_command tr0 store0 env1 1 1).2.1
        env2 1 1).2.1 2 ≠ SendVal.native 2 := by
  rw [trigger_timeout_result tr0 store0 env1 1 1 rfl (fun _ => rfl)]
  rw [trigger_timeout_result _ _ env2 1 1 rfl (fun _ => rfl)]
  constructor <;> decide

/-- C5: the two invocations of the trace above share their binding state:
both end with the same stored original-send reference, namely the first
event's native send, and the second invocation never stores its own event's
send — invocations through the one `CommandTrigger` owned by a
`CommandExecutor` pool the `original_send_method` slot. -/
theorem c5_invocations_share_original_send :
    (trigger_and_capture_command tr0 store0 env1 1 1).1.original_send_method
      = some (SendVal.native 1) ∧
    (trigger_and_capture_command
        (trigger_and_capture_command tr0 store0 env1 1 1).1
        (trigger_and_capture_command tr0 store0 env1 1 1).2.1
        env2 1 1).1.original_send_method = some (SendVal.native 1) ∧
    (trigger_and_capture_command
        (trigger_and_capture_command tr0 store0 env1 1 1).1
        (trigger_and_capture_command tr0 store0 env1 1 1).2.1
        env2 1 1).1.original_send_method ≠ some (SendVal.native 2) := by
  rw [trigger_timeout_result tr0 store0 env1 1 1 rfl (fun _ => rfl)]
  rw [trigger_timeout_result _ _ env2 1 1 rfl (fun _ => rfl)]
  refine ⟨by decide, by decide, by decide⟩

/-- C2: `trigger_and_capture_command` never propagates an internal
exception: whenever the `try` body raises (at event construction,
interceptor installation, or queue submission), the `except` handler
returns the failure outcome `(False, [])` after calling
`restore_message_sender` on the state at the raise point; in particular
every injected failure yields the outcome `(False, [])`. -/
theorem c2_internal_failure_caught (tr : Trigger) (store : Nat → SendVal)
    (env : Env) (mw wi : ℚ) :
    (∀ s, trigger_body tr store env mw wi = Except.error s →
      trigger_and_capture_command tr store env mw wi =
        (s.1, restore_message_sender s.1 s.2, false, [])) ∧
    (env.failAt.isSome = true →
      (trigger_and_capture_command tr store env mw wi).2.2 = (false, [])) := by
  constructor
  · intro s h
    unfold trigger_and_capture_command
    rw [h]
  · intro h
    cases hf : env.failAt with
    | none => rw [hf] at h; simp at h
    | some s =>
      cases s <;>
        simp [trigger_and_capture_command, trigger_body, hf]

/-- Witness for C2 at a concrete failing invocation: a queue-submission
failure is reported as `(False, [])`. -/
theorem c2_witness :
    (trigger_and_capture_command tr0 store0 envE 20 (1/10)).2.2
      = (false, []) :=
  (c2_internal_failure_caught tr0 store0 envE 20 (1/10)).2 rfl

/-- C4 counterexample: passing `None` to the intercepting send appends NO
entry to the capture buffer (the buffer stays empty, so no placeholder
entry is recorded), even though the already-delivered flag is still set and
success is still returned — refuting the claim that a null message is
recorded as a placeholder entry. -/
theorem c4_null_message_not_recorded :
    (intercepted_send [] { hasSendOper := false } none).1 = [] ∧
    (intercepted_send [] { hasSendOper := false } none).2.1.hasSendOper
      = true ∧
    (intercepted_send [] { hasSendOper := false } none).2.2 = true := by
  decide

/-- C4 (amended): for every message passed to the intercepting send, the
buffer gains the message when it is non-`None` (even when it lacks a
well-formed `chain` attribute) and gains nothing when it is `None`; in
every case the event's already-delivered flag is set and success is
returned to the caller of send. -/
theorem c4_intercepted_send_effect (captured : List MsgChain)
    (target : EventFlags) (m : Option MsgChain) :
    intercepted_send captured target m =
      (captured ++ m.toList, { target with hasSendOper := true }, true) := by
  cases m with
  | none => simp [intercepted_send, interceptAppend]
  | some mc => simp [intercepted_send, interceptAppend]

/-- C8: `trigger_and_capture_command` behaves identically to calling it
with `max(max_wait_time, 1.0)` and `max(wait_interval, 0.05)`: the clamps
of command_trigger.py lines 96-97 are idempotent, so sub-minimum (zero or
negative) configuration is indistinguishable from the enforced minimums. -/
theorem c8_clamping_idempotent (tr : Trigger) (store : Nat → SendVal)
    (env : Env) (mw wi : ℚ) :
    trigger_and_capture_command tr store env mw wi =
      trigger_and_capture_command tr store env (max mw 1) (max wi (1/20)) := by
  have h1 : max (max mw 1) 1 = max mw 1 := by
    rw [max_assoc, max_self]
  have h2 : max (max wi (1/20)) (1/20) = max wi (1/20) := by
    rw [max_assoc, max_self]
  have hb : trigger_body tr store env mw wi =
      trigger_body tr store env (max mw 1) (max wi (1/20)) := by
    unfold trigger_body
    simp only [h1, h2]
  unfold trigger_and_capture_command
  rw [hb]

/-- C10: the dynamically registered handler forces `command_text` back to
the command name it was registered for, so the executed command is always
that name and two calls differing only in the caller-supplied
`command_text` execute the same command. -/
theorem c10_command_text_forced (command_name : String)
    (ct1 ct2 kw_args : Option String) :
    (dynamic_handler_call command_name ct1 kw_args).1 = command_name ∧
    (dynamic_handler_call command_name ct1 kw_args).1 =
      (dynamic_handler_call command_name ct2 kw_args).1 := by
  have h : ∀ ct : Option String,
      (dynamic_handler_call command_name ct kw_args).1 = command_name := by
    intro ct
    simp only [dynamic_handler_call]
    split
    · rfl
    · next hne => exact not_not.mp hne
  exact ⟨h ct1, (h ct1).trans (h ct2).symm⟩

/-- C6: when the intercepted send is never called, in a no-failure
invocation the wait loop runs exactly `⌈maxWait' / interval'⌉` iterations
(for the clamped parameters), the call returns the failure outcome
`(False, [])`, and the total waited time is at least the clamped maximum
wait and less than one clamped poll interval beyond it. -/
theorem c6_no_capture_timeout (tr : Trigger) (store : Nat → SendVal)
    (env : Env) (mw wi : ℚ) (hf : env.failAt = none)
    (hd : ∀ t, env.deliver t = []) :
    (trigger_and_capture_command tr store env mw wi).2.2 = (false, []) ∧
    (wait_loop (max mw 1) (max wi (1/20)) env.deliver).2.1 =
      (⌈max mw 1 / max wi (1/20)⌉).toNat ∧
    (wait_loop (max mw 1) (max wi (1/20)) env.deliver).1 =
      ((⌈max mw 1 / max wi (1/20)⌉).toNat : ℚ) * max wi (1/20) ∧
    max mw 1 ≤ (wait_loop (max mw 1) (max wi (1/20)) env.deliver).1 ∧
    (wait_loop (max mw 1) (max wi (1/20)) env.deliver).1 <
      max mw 1 + max wi (1/20) := by
  have hival : (0:ℚ) < max wi (1/20) :=
    lt_of_lt_of_le (by norm_num) (le_max_right _ _)
  have hmaxW : (0:ℚ) < max mw 1 :=
    lt_of_lt_of_le one_pos (le_max_right _ _)
  have hfuel : (⌈(max mw 1 - 0) / max wi (1/20)⌉).toNat ≤
      (⌈max mw 1 / max wi (1/20)⌉).toNat + 1 := by
    rw [sub_zero]
    omega
  have hloop := waitLoopF_no_capture (max mw 1) (max wi (1/20)) hival
    env.deliver hd ((⌈max mw 1 / max wi (1/20)⌉).toNat + 1) 0 0 hfuel
  have hwl : wait_loop (max mw 1) (max wi (1/20)) env.deliver =
      (((⌈max mw 1 / max wi (1/20)⌉).toNat : ℚ) * max wi (1/20),
       (⌈max mw 1 / max wi (1/20)⌉).toNat, []) := by
    unfold wait_loop
    rw [hloop]
    simp
  have hc1 : 1 ≤ ⌈max mw 1 / max wi (1/20)⌉ :=
    Int.ceil_pos.mpr (div_pos hmaxW hival)
  have hcast : (((⌈max mw 1 / max wi (1/20)⌉).toNat : ℚ)) =
      ((⌈max mw 1 / max wi (1/20)⌉ : ℤ) : ℚ) := by
    have h := Int.toNat_of_nonneg
      (show (0:ℤ) ≤ ⌈max mw 1 / max wi (1/20)⌉ by omega)
    exact_mod_cast congrArg (fun z : ℤ => (z : ℚ)) h
  refine ⟨?_, ?_, ?_, ?_, ?_⟩
  · rw [trigger_timeout_result tr store env mw wi hf hd]
  · rw [hwl]
  · rw [hwl]
  · rw [hwl]
    have hdiv : max mw 1 / max wi (1/20) ≤
        (((⌈max mw 1 / max wi (1/20)⌉).toNat : ℚ)) := by
      rw [hcast]
      exact Int.le_ceil _
    exact (div_le_iff₀ hival).mp hdiv
  · rw [hwl]
    have h2 : (((⌈max mw 1 / max wi (1/20)⌉).toNat : ℚ)) <
        max mw 1 / max wi (1/20) + 1 := by
      rw [hcast]
      exact Int.ceil_lt_add_one _
    have h3 := mul_lt_mul_of_pos_right h2 hival
    rw [add_mul, div_mul_cancel₀ _ (ne_of_gt hival), one_mul] at h3
    exact h3

/-- Witness for C6: with both parameters at 1, the clamped invocation on a
silent pipeline times out with `(False, [])` and the stated loop counts. -/
theorem c6_witness :
    (trigger_and_capture_command tr0 store0 env1 1 1).2.2 = (false, []) ∧
    (wait_loop (max (1:ℚ) 1) (max 1 (1/20)) env1.deliver).2.1 =
      (⌈max (1:ℚ) 1 / max 1 (1/20)⌉).toNat ∧
    (wait_loop (max (1:ℚ) 1) (max 1 (1/20)) env1.deliver).1 =
      ((⌈max (1:ℚ) 1 / max 1 (1/20)⌉).toNat : ℚ) * max 1 (1/20) ∧
    max (1:ℚ) 1 ≤ (wait_loop (max (1:ℚ) 1) (max 1 (1/20)) env1.deliver).1 ∧
    (wait_loop (max (1:ℚ) 1) (max 1 (1/20)) env1.deliver).1 <
      max (1:ℚ) 1 + max 1 (1/20) :=
  c6_no_capture_timeout tr0 store0 env1 1 1 rfl (fun _ => rfl)

/-- C3: for a completed (no-failure) invocation, the returned flag is true
exactly when the wait loop's final buffer is non-empty, in the success case
the returned list is exactly that buffer, and the buffer consists of the
non-`None` messages the intercepted send received during the executed
ticks, in emission order. -/
theorem c3_success_iff_captured (tr : Trigger) (store : Nat → SendVal)
    (env : Env) (mw wi : ℚ) (hf : env.failAt = none) :
    ((trigger_and_capture_command tr store env mw wi).2.2.1 = true ↔
      (wait_loop (max mw 1) (max wi (1/20)) env.deliver).2.2 ≠ []) ∧
    ((trigger_and_capture_command tr store env mw wi).2.2.1 = true →
      (trigger_and_capture_command tr store env mw wi).2.2.2 =
        (wait_loop (max mw 1) (max wi (1/20)) env.deliver).2.2) ∧
    (wait_loop (max mw 1) (max wi (1/20)) env.deliver).2.2 =
      ((List.range
          (wait_loop (max mw 1) (max wi (1/20)) env.deliver).2.1).flatMap
        env.deliver).filterMap id := by
  have h3 : (wait_loop (max mw 1) (max wi (1/20)) env.deliver).2.2 =
      ((List.range
          (wait_loop (max mw 1) (max wi (1/20)) env.deliver).2.1).flatMap
        env.deliver).filterMap id := by
    have h := (waitLoopF_run (max mw 1) (max wi (1/20)) env.deliver
      ((⌈max mw 1 / max wi (1/20)⌉).toNat + 1) 0 0 []).2
    rw [List.range_eq_range' _]
    unfold wait_loop
    simpa using h
  have houtcome : (trigger_and_capture_command tr store env mw wi).2.2 =
      (if (wait_loop (max mw 1) (max wi (1/20)) env.deliver).2.2 = [] then
        ((false : Bool), ([] : List MsgChain))
      else
        (true, (wait_loop (max mw 1) (max wi (1/20)) env.deliver).2.2)) := by
    unfold trigger_and_capture_command trigger_body
    simp only [hf, reduceCtorEq, if_false, ite_false]
    by_cases hc :
        (wait_loop (max mw 1) (max wi (1/20)) env.deliver).2.2 = []
    · rw [if_pos hc, if_pos hc]
    · rw [if_neg hc, if_neg hc]
  refine ⟨?_, ?_, h3⟩
  · rw [houtcome]
    by_cases hc :
        (wait_loop (max mw 1) (max wi (1/20)) env.deliver).2.2 = []
    · rw [if_pos hc]
      constructor
      · intro h
        exact absurd h (by decide)
      · intro hne
        exact absurd hc hne
    · rw [if_neg hc]
      exact ⟨fun _ => hc, fun _ => rfl⟩
  · intro h
    rw [houtcome] at h ⊢
    by_cases hc :
        (wait_loop (max mw 1) (max wi (1/20)) env.deliver).2.2 = []
    · rw [if_pos hc] at h
      exact nomatch h
    · rw [if_neg hc]

/-- Witness for C3 at a concrete invocation answered in the first tick. -/
theorem c3_witness :
    ((trigger_and_capture_command tr0 store0 env3 1 1).2.2.1 = true ↔
      (wait_loop (max (1:ℚ) 1) (max 1 (1/20)) env3.deliver).2.2 ≠ []) ∧
    ((trigger_and_capture_command tr0 store0 env3 1 1).2.2.1 = true →
      (trigger_and_capture_command tr0 store0 env3 1 1).2.2.2 =
        (wait_loop (max (1:ℚ) 1) (max 1 (1/20)) env3.deliver).2.2) ∧
    (wait_loop (max (1:ℚ) 1) (max 1 (1/20)) env3.deliver).2.2 =
      ((List.range
          (wait_loop (max (1:ℚ) 1) (max 1 (1/20)) env3.deliver).2.1).flatMap
        env3.deliver).filterMap id :=
  c3_success_iff_captured tr0 store0 env3 1 1 rfl

/-- Counting through `intersperse`: the separator contributes once per gap
between consecutive elements, other elements are counted as in the list. -/
theorem countP_intersperse {α : Type} (p : α → Bool) (sep : α) :
    ∀ l : List α, (List.intersperse sep l).countP p =
      l.countP p + (if p sep = true then l.length - 1 else 0) := by
  intro l
  induction l with
  | nil => simp
  | cons a t ih =>
    cases t with
    | nil => simp [List.intersperse_singleton]
    | cons b t' =>
      rw [List.intersperse_cons_cons]
      by_cases hs : p sep = true <;> by_cases hpa : p a = true <;>
        simp [List.countP_cons, ih, hs, hpa, List.length_cons] <;> omega

/-- The enumerated forwarding loop of `trigger_and_forward_command` emits
the batch as sends separated by single pacing delays: the delay chunk is
taken exactly for the entries before the last one. -/
theorem forward_chunk_intersperse (umo : String) (d : FwdAction) :
    ∀ (l : List MsgChain) (s n : Nat), s + l.length = n → l ≠ [] →
      (List.enumFrom s l).flatMap (fun p =>
          FwdAction.send umo p.2 ::
            (if 1 < n ∧ p.1 < n - 1 then [d] else [])) =
        List.intersperse d (l.map (FwdAction.send umo)) := by
  intro l
  induction l with
  | nil =>
    intro s n _ h
    exact absurd rfl h
  | cons a t ih =>
    intro s n hn hne
    cases t with
    | nil =>
      simp only [List.length_cons, List.length_nil] at hn
      have hcond : ¬ (1 < n ∧ s < n - 1) := by omega
      simp [List.enumFrom, hcond, List.intersperse_singleton]
    | cons b t' =>
      simp only [List.length_cons] at hn
      have hcond : 1 < n ∧ s < n - 1 := by omega
      have hlen : (s + 1) + (b :: t').length = n := by
        simp only [List.length_cons]
        omega
      rw [show List.enumFrom s (a :: b :: t') =
        (s, a) :: List.enumFrom (s + 1) (b :: t') from rfl]
      rw [List.flatMap_cons, ih (s + 1) n hlen (by simp)]
      simp [hcond, List.intersperse_cons_cons]

/-- C7: on a successful capture, the forwarding trace is the captured batch
mapped to real deliveries with exactly one pacing delay between consecutive
deliveries and none after the last (so `n` sends and `n - 1` sleeps, in
capture order); on a failed or empty capture it is exactly one delivery of
the failure notice, whose text names the attempted command. -/
theorem c7_forward_trace_shape (umo command : String) (msgs : List MsgChain)
    (d : ℚ) :
    (msgs ≠ [] →
      forward_trace umo command true msgs d =
        List.intersperse (FwdAction.sleep (max d 0))
          (msgs.map (FwdAction.send umo)) ∧
      (forward_trace umo command true msgs d).countP FwdAction.isSend =
        msgs.length ∧
      (forward_trace umo command true msgs d).countP FwdAction.isSleep =
        msgs.length - 1) ∧
    forward_trace umo command false msgs d =
      [FwdAction.send umo (forward_error_msg command)] ∧
    forward_trace umo command true [] d =
      [FwdAction.send umo (forward_error_msg command)] ∧
    (forward_error_msg command).chain =
      [Component.plain ("指令 " ++ command ++ " 执行失败，未收到响应")] := by
  refine ⟨?_, ?_, ?_, rfl⟩
  · intro hne
    have htrace : forward_trace umo command true msgs d =
        List.intersperse (FwdAction.sleep (max d 0))
          (msgs.map (FwdAction.send umo)) := by
      unfold forward_trace
      rw [if_pos ⟨rfl, hne⟩]
      exact forward_chunk_intersperse umo (FwdAction.sleep (max d 0)) msgs
        0 msgs.length (by omega) hne
    refine ⟨htrace, ?_, ?_⟩
    · rw [htrace, countP_intersperse]
      have hsep : FwdAction.isSend (FwdAction.sleep (max d 0)) = false := rfl
      rw [hsep]
      simp only [List.countP_map, if_false]
      have hcomp : (FwdAction.isSend ∘ FwdAction.send umo) =
          fun _ : MsgChain => true := rfl
      rw [hcomp]
      have := congrFun (List.countP_true (α := MsgChain)) msgs
      simp_all
    · rw [htrace, countP_intersperse]
      have hsep : FwdAction.isSleep (FwdAction.sleep (max d 0)) = true := rfl
      rw [hsep]
      simp only [List.countP_map, if_true]
      have hcomp : (FwdAction.isSleep ∘ FwdAction.send umo) =
          fun _ : MsgChain => false := rfl
      rw [hcomp]
      have := congrFun (List.countP_false (α := MsgChain)) msgs
      simp_all
  · unfold forward_trace
    simp
  · unfold forward_trace
    simp

/-- Witness for C7: a three-message batch forwards as three deliveries with
two pacing delays, in order. -/
theorem c7_witness :
    forward_trace "room1" "/status" true [mA, mB, mC] (1/2) =
      List.intersperse (FwdAction.sleep (max (1/2) 0))
        ([mA, mB, mC].map (FwdAction.send "room1")) ∧
    (forward_trace "room1" "/status" true [mA, mB, mC] (1/2)).countP
      FwdAction.isSend = 3 ∧
    (forward_trace "room1" "/status" true [mA, mB, mC] (1/2)).countP
      FwdAction.isSleep = 2 := by
  have h := (c7_forward_trace_shape "room1" "/status" [mA, mB, mC] (1/2)).1
    (by simp)
  exact ⟨h.1, h.2.1, h.2.2⟩

/-- C9: when the command name already has a mapping (in the view reloaded
from the persisted config), `add_mapping` returns failure with a non-empty
message, leaves the in-memory mapping set exactly as the reload produced
it, leaves the persisted config section untouched, and performs no
mapping-section save.  This holds for every validator, so the behavior of
`CommandUtils.validate_mapping` (defined in `utils.py`) is irrelevant. -/
theorem c9_duplicate_add_mapping (st : DMState)
    (validate : String → String → List String) (cn lf desc now : String)
    (h : (normalize_mapping_entries st.config.command_mappings).any
        (fun p => p.1 == cn) = true) :
    (add_mapping st validate cn lf desc now).2.1 = false ∧
    0 < (add_mapping st validate cn lf desc now).2.2.length ∧
    (add_mapping st validate cn lf desc now).1 = reload_from_config st ∧
    (add_mapping st validate cn lf desc now).1.config = st.config ∧
    (add_mapping st validate cn lf desc now).1.mapping_saves =
      st.mapping_saves := by
  have hany : (reload_from_config st).command_mappings.any
      (fun p => p.1 == cn) = true := h
  have hmain : (add_mapping st validate cn lf desc now).1 =
        reload_from_config st ∧
      (add_mapping st validate cn lf desc now).2.1 = false ∧
      0 < (add_mapping st validate cn lf desc now).2.2.length := by
    unfold add_mapping
    simp only []
    rw [if_pos hany]
    split
    · refine ⟨rfl, rfl, ?_⟩
      rw [String.length_append]
      have hA : (0:Nat) < ("参数验证失败: ").length := by decide
      omega
    · split
      · refine ⟨rfl, rfl, ?_⟩
        show (0:Nat) < ("LLM函数名称仅允许字母、数字和下划线").length
        decide
      · split
        · refine ⟨rfl, rfl, ?_⟩
          simp only [String.length_append]
          have hC : (0:Nat) < ("LLM函数 '").length := by decide
          omega
        · refine ⟨rfl, rfl, ?_⟩
          simp only [String.length_append]
          have hD : (0:Nat) < ("指令 '").length := by decide
          omega
  refine ⟨hmain.2.1, hmain.2.2, hmain.1, ?_, ?_⟩
  · rw [hmain.1]
    rfl
  · rw [hmain.1]
    rfl

/-- Witness for C9: adding a mapping for the already-mapped command
`weather` fails without touching the state or saving. -/
theorem c9_witness :
    (add_mapping dm0 (fun _ _ => []) "weather" "f2" "" "t").2.1 = false ∧
    0 < (add_mapping dm0 (fun _ _ => []) "weather" "f2" "" "t").2.2.length ∧
    (add_mapping dm0 (fun _ _ => []) "weather" "f2" "" "t").1 =
      reload_from_config dm0 ∧
    (add_mapping dm0 (fun _ _ => []) "weather" "f2" "" "t").1.config =
      dm0.config ∧
    (add_mapping dm0 (fun _ _ => []) "weather" "f2" "" "t").1.mapping_saves =
      dm0.mapping_saves :=
  c9_duplicate_add_mapping dm0 (fun _ _ => []) "weather" "f2" "" "t"
    (by decide)
